import Mathlib

/-!
# Verification of the tmc-summarizer temporal aggregation engine

This file gives a shallow embedding, in Lean, of the core data
transformations of the `tmc_summarizer` Python package (header
normalization, interval tables, rolling hourly totals, peak-hour
selection, network reconciliation and derived metrics), together with
theorems settling the specified properties of those transformations.

Conventions of the embedding:
* Timestamps are integers.  A full timestamp (`datetime`) is measured in
  seconds; a time-of-day is measured in seconds since midnight, so noon
  is `43200` and 15 minutes is `900`.
* `pandas`/`numpy` float results of integer division are modelled by
  `NumVal`: a rational number, `nan`, or a signed infinity, following
  IEEE semantics (`0 / 0 = nan`, `x / 0 = ±inf` for `x ≠ 0`), which is
  what the numpy true division of int64 scalars and pandas element-wise
  division produce (a warning, never an exception).
* A Python exception that escapes the function under study is modelled
  by `Except.error`; a caught exception follows the handler in the source.
* Python `str.upper` / `str.lower` / `str.split` / `int` are modelled
  character-wise (`pyUpper`, `pyLower`, `splitOnChar`, `parseNat`).
-/

/-- Character-wise model of Python `str.upper()`. -/
def pyUpper (s : String) : String := ⟨s.data.map Char.toUpper⟩

/-- Character-wise model of Python `str.lower()`. -/
def pyLower (s : String) : String := ⟨s.data.map Char.toLower⟩

/-- Split a character list at every occurrence of `c`, Python
`str.split(sep)` style: `"7:00".split(":") = ["7", "00"]`,
`"::".split(":") = ["", "", ""]`. -/
def splitOnChar (c : Char) : List Char → List (List Char)
  | [] => [[]]
  | x :: xs =>
    let r := splitOnChar c xs
    if x = c then [] :: r
    else (x :: r.headD []) :: r.tail

/-- Model of Python `int(s)` on a non-negative decimal string: `some`
of the value on a non-empty all-digit input, `none` (a `ValueError`)
otherwise. -/
def parseNat (l : List Char) : Option Nat :=
  if l.isEmpty then none
  else
    l.foldl
      (fun acc c =>
        match acc with
        | some a => if c.isDigit then some (a * 10 + (c.toNat - 48)) else none
        | none => none)
      (some 0)

/-- The value of one float-valued cell produced by numpy/pandas integer
division: a rational, Not-a-Number, or a signed infinity. -/
inductive NumVal
  | num (q : ℚ)
  | nan
  | inf
  | ninf
deriving DecidableEq, Repr

/-- The numpy true division of two int64 scalars (also pandas
element-wise division of integer columns): an exact quotient when the
divisor is non-zero, and `nan` / `inf` / `-inf` (with a runtime
warning, not an exception) when it is zero. -/
def numpyDiv (a b : ℤ) : NumVal :=
  if b ≠ 0 then NumVal.num ((a : ℚ) / (b : ℚ))
  else if a = 0 then NumVal.nan
  else if 0 < a then NumVal.inf
  else NumVal.ninf

/-- A raw time-of-day cell as it comes out of `pd.read_excel`: a full
`datetime`, a structured `datetime.time`, or a free-form text value. -/
inductive TimeCell
  | dt (day : ℤ) (sec : ℤ)
  | tod (sec : ℤ)
  | txt (s : String)
deriving DecidableEq, Repr

/-- An index entry of a site dataframe: either a full `datetime`
(`day` date, `sec` seconds since midnight of that day) or, after the
in-place conversion performed by the network pass, a bare
`datetime.time` (seconds since midnight). -/
inductive StampVal
  | dt (day : ℤ) (sec : ℤ)
  | tod (sec : ℤ)
deriving DecidableEq, Repr

/-- Model of `pandas.DatetimeIndex.time`: the time-of-day component of an index
entry; on an entry that is already a time it is the identity (the
source reaches that case through `try/except`). -/
def StampVal.toTimeOfDay : StampVal → StampVal
  | StampVal.dt _ s => StampVal.tod s
  | StampVal.tod s => StampVal.tod s

/-- Seconds-since-midnight of an index entry, the quantity compared by
`df.index >= start` / `df.index < end` once bounds are times. -/
def StampVal.sec : StampVal → ℤ
  | StampVal.dt _ s => s
  | StampVal.tod s => s

/-! ## Header normalization (`flatten_headers`)

Two versions exist in the repository: the method
`TMC_File.flatten_headers` in `data_model.py` (used by the main
pipeline) and the free function `flatten_headers` in
`business_logic.py` (used by the web upload path).  A header column is
modelled as the pair of its level-1 cell (`none` when blank/merged)
and its level-2 cell. -/

/-- The `replacements_level_1` direction lookup table (identical in
both versions). -/
def replacements_level_1 : List (String × String) :=
  [("Southbound", "SB "), ("Westbound", "WB "),
   ("Northbound", "NB "), ("Eastbound", "EB ")]

/-- The `replacements_level_2` movement lookup table of
`data_model.py` (canonical names plus documented typos). -/
def replacements_level_2_dm : List (String × String) :=
  [("u turns", "U"), ("left turns", "Left"), ("straight through", "Thru"),
   ("right turns", "Right"), ("ped crossings", "Peds Xwalk"),
   ("bikes in crosswalk", "Bikes Xwalk"), ("bicycles in crosswalk", "Bikes Xwalk"),
   ("time", "time"), ("date", "date"),
   ("bikes in croswalk", "Bikes Xwalk"), ("peds in croswalk", "Peds Xwalk"),
   ("crosswalk crossings", "Xwalk Xings")]

/-- The `replacements_level_2` movement lookup table of
`business_logic.py`. -/
def replacements_level_2_bl : List (String × String) :=
  [("u turns", "U"), ("left turns", "Left"), ("straight through", "Thru"),
   ("right turns", "Right"), ("peds in crosswalk", "Peds Xwalk"),
   ("bikes in crosswalk", "Bikes Xwalk"), ("time", "time"),
   ("bikes in croswalk", "Bikes Xwalk"), ("peds in croswalk", "Peds Xwalk")]

/-- A warning printed during header normalization.  The two
constructors model the two distinct messages of `business_logic.py`
("not included in the level 1 lookup" versus "level 2 lookup"). -/
inductive HeaderWarning
  | unknownDirection (raw : String)
  | unknownMovement (raw : String)
deriving DecidableEq, Repr

/-- Loop state of `flatten_headers`: the carried direction string
`l1`, the headers built so far, and the warnings printed so far. -/
structure FHState where
  l1 : String
  headers : List String
  warnings : List HeaderWarning
deriving DecidableEq, Repr

/-- One loop iteration of `business_logic.flatten_headers`: update the
carried direction (falling back to the raw level-1 text, with a
level-1 warning, when it is not in the lookup), then translate the
level-2 cell (falling back to the raw text, with a level-2 warning). -/
def flattenStepBL (st : FHState) (cell : Option String × String) : FHState :=
  let st1 : FHState :=
    match cell.1 with
    | none => st
    | some lv1 =>
      match replacements_level_1.lookup lv1 with
      | some rep => { st with l1 := rep }
      | none =>
        { st with l1 := lv1,
                  warnings := st.warnings ++ [HeaderWarning.unknownDirection lv1] }
  match replacements_level_2_bl.lookup (pyLower cell.2) with
  | some rep => { st1 with headers := st1.headers ++ [st1.l1 ++ rep] }
  | none =>
    { st1 with headers := st1.headers ++ [st1.l1 ++ cell.2],
               warnings := st1.warnings ++ [HeaderWarning.unknownMovement cell.2] }

/-- Model of `business_logic.flatten_headers`: fold over the header columns,
returning the flattened header names and the warnings printed. -/
def flatten_headers_bl (cells : List (Option String × String)) :
    List String × List HeaderWarning :=
  let st := cells.foldl flattenStepBL ⟨"", [], []⟩
  (st.headers, st.warnings)

/-- One loop iteration of `TMC_File.flatten_headers` in
`data_model.py`: here `replacements_level_1[level_1]` is a bare
dictionary subscript, so an unknown direction raises `KeyError`;
only the level-2 lookup has the warn-and-continue fallback. -/
def flattenStepDM (st : FHState) (cell : Option String × String) :
    Except String FHState :=
  let stepL1 : Except String FHState :=
    match cell.1 with
    | none => Except.ok st
    | some lv1 =>
      match replacements_level_1.lookup lv1 with
      | some rep => Except.ok { st with l1 := rep }
      | none => Except.error ("KeyError: " ++ lv1)
  stepL1.map fun st1 =>
    match replacements_level_2_dm.lookup (pyLower cell.2) with
    | some rep => { st1 with headers := st1.headers ++ [st1.l1 ++ rep] }
    | none =>
      { st1 with headers := st1.headers ++ [st1.l1 ++ cell.2],
                 warnings := st1.warnings ++ [HeaderWarning.unknownMovement cell.2] }

/-- Model of `TMC_File.flatten_headers`: fold over the header columns; the
whole call fails (`KeyError` propagates) at the first unknown
direction token. -/
def flatten_headers_dm (cells : List (Option String × String)) :
    Except String (List String × List HeaderWarning) :=
  (cells.foldlM flattenStepDM ⟨"", [], []⟩).map fun st => (st.headers, st.warnings)

/-! ## Interval table building: the time column (`read_data_tab`) -/

/-- The `try: row.time = datetime.time(row.time) except: ...` step of
`TMC_File.read_data_tab`: `datetime.time` is the *method* of the
`datetime` class, so it extracts the time from a full `datetime` and
raises `TypeError` (caught, value kept unchanged) on anything else. -/
def coerce_time_dm : TimeCell → TimeCell
  | TimeCell.dt _ s => TimeCell.tod s
  | c => c

/-- Model of `datetime.combine(self.date, row.time)`: succeeds only when the
second argument is a `datetime.time`; on a string it raises
`TypeError`, which `read_data_tab` does not catch. -/
def datetime_combine (date : ℤ) : TimeCell → Except String ℤ
  | TimeCell.tod s => Except.ok (86400 * date + s)
  | _ => Except.error "TypeError: combine() argument 2 must be a datetime.time"

/-- The per-row timestamp construction loop of
`TMC_File.read_data_tab`: the time cell of each row is coerced then
combined with the survey date; the first failure aborts the whole
read (the resulting `TypeError` is uncaught). -/
def read_data_tab_times (date : ℤ) (times : List TimeCell) :
    Except String (List ℤ) :=
  times.foldlM
    (fun acc c => (datetime_combine date (coerce_time_dm c)).map (fun t => acc ++ [t]))
    []

/-- Python `datetime.time(hour=h, minute=m)`: valid for `h ≤ 23`,
`m ≤ 59`, otherwise `ValueError`.  The result is seconds since
midnight. -/
def py_time (h m : ℕ) : Except String ℤ :=
  if h ≤ 23 ∧ m ≤ 59 then Except.ok (3600 * (h : ℤ) + 60 * (m : ℤ))
  else Except.error "ValueError: hour/minute out of range"

/-- The `hour, minute = row.time.split(":")` / `time(int(hour),
int(minute))` parse of `TMC_Webapp_Upload_File.read_data`: requires
exactly two `:`-separated fields, both decimal. -/
def parse_hmm (s : String) : Except String ℤ :=
  match splitOnChar ':' s.data with
  | [hs, ms] =>
    match parseNat hs, parseNat ms with
    | some h, some m => py_time h m
    | _, _ => Except.error "ValueError: invalid literal for int()"
  | _ => Except.error "ValueError: cannot unpack"

/-- One row of the time-fixing loop of
`TMC_Webapp_Upload_File.read_data`: a value that already is a
`datetime.time` is kept; any other value is `.split(":")`-parsed, so a
well-formed "H:MM" string succeeds, a malformed string raises
`ValueError`, and a full `datetime` raises `AttributeError` (no
`.split`). -/
def web_coerce_time : TimeCell → Except String ℤ
  | TimeCell.tod s => Except.ok s
  | TimeCell.txt s => parse_hmm s
  | TimeCell.dt _ _ => Except.error "AttributeError: datetime has no attribute split"

/-- The time-fixing loop of `TMC_Webapp_Upload_File.read_data` over
all rows: the first failure aborts the read. -/
def web_read_times (times : List TimeCell) : Except String (List ℤ) :=
  times.foldlM (fun acc c => (web_coerce_time c).map (fun t => acc ++ [t])) []

/-! ## Rolling aggregator (`add_hourly_totals`)

A series row is the pair `(timestamp, interval_total)` — the
`total_15_min` column of the source.  `add_hourly_totals` appends the
`total_hourly` column. -/

/-- The window sum computed for one row of `add_hourly_totals`:
`end = idx + 15min`, `start = end - 1hour`, then the sum of
`total_15_min` over the rows whose index lies in `[start, end)`. -/
def hourly_window_sum (rows : List (ℤ × ℤ)) (t : ℤ) : ℤ :=
  (((rows.filter fun q => decide (t + 900 - 3600 ≤ q.1 ∧ q.1 < t + 900)).map
    Prod.snd)).sum

/-- Model of `TMC_File.add_hourly_totals`: every row is augmented with the
trailing one-hour sum of `total_15_min`. -/
def add_hourly_totals (rows : List (ℤ × ℤ)) : List (ℤ × ℤ × ℤ) :=
  rows.map fun r => (r.1, r.2, hourly_window_sum rows r.1)

/-- A series of contiguous 15-minute rows: row `i` has timestamp
`t0 + 900 * i` and `interval_total` the `i`-th element of `vs`. -/
def contiguousSeries (t0 : ℤ) (vs : List ℤ) : List (ℤ × ℤ) :=
  vs.enum.map fun p => (t0 + 900 * (p.1 : ℤ), p.2)

/-! ## Peak window selector (`get_peak_hour`) -/

/-- Noon as seconds since midnight of the reference date
(`datetime.combine(self.date, time(hour=12))`). -/
def noonSec : ℤ := 43200

/-- Result of `TMC_File.get_peak_hour`: a `(start, end)` window, the
`None` return after the "Period must be AM or PM" message, or the
exception pandas raises when `idxmax` is taken over an empty
day-part subset. -/
inductive PeakResult
  | window (s e : ℤ)
  | invalidPeriod
  | emptyError
deriving DecidableEq, Repr

/-- Model of `df[["total_hourly"]].idxmax()[0]`: the index label of the *first*
row attaining the maximum of `total_hourly` (pandas keeps the first
occurrence on ties); `none` on an empty frame (pandas raises).  A row
is the pair `(timestamp, total_hourly)`. -/
def first_idxmax (rows : List (ℤ × ℤ)) : Option ℤ :=
  match rows with
  | [] => none
  | r :: rs =>
    some ((rs.foldl (fun best cur => if best.2 < cur.2 then cur else best) r).1)

/-- The day-part subset taken by `get_peak_hour`: rows strictly before
noon for "AM", rows at or after noon for "PM" (after upper-casing the
argument); empty for anything else. -/
def daypart_subset (rows : List (ℤ × ℤ)) (period : String) : List (ℤ × ℤ) :=
  if pyUpper period = "AM" then rows.filter fun r => decide (r.1 < noonSec)
  else if pyUpper period = "PM" then rows.filter fun r => decide (noonSec ≤ r.1)
  else []

/-- The tail of `get_peak_hour` applied to a day-part subset:
`end` = timestamp of the idxmax row `+ 15min`, `start = end - 1hour`. -/
def peak_from_subset (sub : List (ℤ × ℤ)) : PeakResult :=
  match first_idxmax sub with
  | none => PeakResult.emptyError
  | some t => PeakResult.window (t + 900 - 3600) (t + 900)

/-- Model of `TMC_File.get_peak_hour` on the `(timestamp, total_hourly)` view
of `df_total`: upper-case the period, slice the day part, locate the
maximal rolling hour; an unrecognized period prints a message and
returns `None` before any frame access. -/
def get_peak_hour (rows : List (ℤ × ℤ)) (period : String) : PeakResult :=
  if pyUpper period = "AM" then peak_from_subset (daypart_subset rows period)
  else if pyUpper period = "PM" then peak_from_subset (daypart_subset rows period)
  else PeakResult.invalidPeriod

/-! ## Network reconciler (`write_summary_file`)

`write_summary_file` collects the peak-window start of each site both as
seconds since midnight (`am_peak_hour_list`) and as a datetime
(`am_peak_hour_times`), in file-processing order.  The *printed*
network peak is `statistics.median` of the seconds list; the window
actually used to re-slice every site is
`am_peak_hour_times[len(am_peak_hour_times) // 2]`. -/

/-- Model of `statistics.median`: sort the data; the middle element for an odd
count, the mean of the two middle elements for an even count
(0 on an empty list, where Python raises instead). -/
def python_median (l : List ℚ) : ℚ :=
  let s := l.insertionSort (· ≤ ·)
  let n := l.length
  if n % 2 = 1 then s.getD (n / 2) 0
  else (s.getD (n / 2 - 1) 0 + s.getD (n / 2) 0) / 2

/-- The printed network peak window per day-part:
`(median of start seconds, median + 3600)` as formatted into
`am_network_peak` / `pm_network_peak`. -/
def network_printed_peak (startSeconds : List ℚ) : ℚ × ℚ :=
  (python_median startSeconds, python_median startSeconds + 3600)

/-- The start time used for re-slicing:
`am_peak_hour_times[len(am_peak_hour_times) // 2]` — the element at
index `⌊n/2⌋` of the *unsorted* list of site start times (`none`
models the `IndexError` on an empty list). -/
def network_reslice_start (startTimes : List ℤ) : Option ℤ :=
  startTimes.get? (startTimes.length / 2)

/-- The end of the re-slicing window: start plus one hour. -/
def network_reslice_end (startTimes : List ℤ) : Option ℤ :=
  (network_reslice_start startTimes).map (· + 3600)

/-! ## Network re-slicing of the dataframe of one site -/

/-- One site dataframe: its index column and, per row, the list of its
numeric cells (the movement columns, `total_15_min`, and
`total_hourly` last). -/
structure SiteDF where
  index : List StampVal
  data : List (List ℤ)
deriving DecidableEq, Repr

/-- Column sums of a list of rows, pandas `df.sum()` (rows are assumed
column-aligned; the empty frame sums to an empty row here). -/
def sum_rows (rows : List (List ℤ)) : List ℤ :=
  match rows with
  | [] => []
  | r :: rs => rs.foldl (fun acc q => acc.zipWith (· + ·) q) r

/-- Model of `summarize.get_network_peak_hour_df`: the statement
`df.index = df.index.time` *mutates the dataframe of the caller in place*,
replacing every full datetime of the index by its time-of-day (the
`try/except` makes a repeat call keep the index unchanged); the
summary row is then the column sums of the rows inside
`[start, end)`, with the trailing `total_hourly` column deleted.
The result is the pair (new state of the site dataframe, summary
row). -/
def get_network_peak_hour_df (df : SiteDF) (start fin : ℤ) :
    SiteDF × List ℤ :=
  let df2 : SiteDF := ⟨df.index.map StampVal.toTimeOfDay, df.data⟩
  let kept := (df2.index.zip df2.data).filter
    fun p => decide (start ≤ p.1.sec ∧ p.1.sec < fin)
  (df2, (sum_rows (kept.map Prod.snd)).dropLast)

/-- Model of `summarize.get_df_peak`: same in-place index conversion, returning
the sliced rows themselves (used to feed
`network_peak_hour_factor`). -/
def get_df_peak (df : SiteDF) (start fin : ℤ) :
    SiteDF × List (StampVal × List ℤ) :=
  let df2 : SiteDF := ⟨df.index.map StampVal.toTimeOfDay, df.data⟩
  let kept := (df2.index.zip df2.data).filter
    fun p => decide (start ≤ p.1.sec ∧ p.1.sec < fin)
  (df2, kept)

/-! ## Derived metrics: percent heavy -/

/-- The percent-heavy cell of one movement, `(1 - light/total) * 100` under
pandas float semantics: `nan` and the infinities of a zero `total`
propagate through the subtraction and the scaling. -/
def heavy_pct_cell (light total : ℤ) : NumVal :=
  match numpyDiv light total with
  | NumVal.num q => NumVal.num ((1 - q) * 100)
  | NumVal.nan => NumVal.nan
  | NumVal.inf => NumVal.ninf
  | NumVal.ninf => NumVal.inf

/-- The column sums of a window `[start, fin)` of a site series whose
rows are `(timestamp, cells)` — the single summary row produced by
`TMC_File.df_peak_hour` for that window. -/
def df_peak_hour_sums (rows : List (ℤ × List ℤ)) (start fin : ℤ) : List ℤ :=
  sum_rows ((rows.filter fun r => decide (start ≤ r.1 ∧ r.1 < fin)).map Prod.snd)

/-- Model of `TMC_File.df_peak_hour_heavy_pct` (and the element-wise core of
`summarize.df_network_peak_hour_heavy_pct`): the percent-heavy row is
`(1 - light/total) * 100` applied movement-by-movement to the light
and total window sums. -/
def df_peak_hour_heavy_pct (total_rows cars_rows : List (ℤ × List ℤ))
    (start fin : ℤ) : List NumVal :=
  ((df_peak_hour_sums cars_rows start fin).zip
    (df_peak_hour_sums total_rows start fin)).map
    fun p => heavy_pct_cell p.1 p.2

/-! ## Network peak hour factor -/

/-- One row of a sliced peak frame as consumed by
`network_peak_hour_factor`: timestamp, `total_15_min`, and
`total_hourly`. -/
structure PRow where
  t : ℤ
  fifteen : ℤ
  hourly : ℤ
deriving DecidableEq, Repr

/-- Model of `summarize.network_peak_hour_factor`:
`total_hourly` of the last row divided by `4 * max(total_15_min)`
(numpy semantics on a zero denominator); `none` models the
`IndexError` `.iat[-1]` raises on an empty frame. -/
def network_peak_hour_factor : List PRow → Option NumVal
  | [] => none
  | r :: rs =>
    some (numpyDiv (rs.getLastD r).hourly
      (4 * rs.foldl (fun a q => max a q.fifteen) r.fifteen))

/-! ## Detail-report peak hour factor columns -/

/-- One row of the `Detail` tab as far as `update_peak_hour_factors`
reads and writes it. -/
structure DetailRow where
  location_id : ℤ
  dtype : String
  period : String
  peak_hour_factor : NumVal
deriving DecidableEq, Repr

/-- Model of `summarize.update_peak_hour_factors`: for the given site and
day-part, the `peak_hour_factor` of the `total` row is overwritten with
the network factor, and that of the `heavy_pct` row with the literal `0`. -/
def update_peak_hour_factors (df_detail : List DetailRow) (key : ℤ)
    (timePeriod : String) (factor : NumVal) : List DetailRow :=
  df_detail.map fun r =>
    if r.period = timePeriod ∧ r.location_id = key ∧ r.dtype = "total" then
      { r with peak_hour_factor := factor }
    else if r.period = timePeriod ∧ r.location_id = key ∧ r.dtype = "heavy_pct" then
      { r with peak_hour_factor := NumVal.num 0 }
    else r

/-! ## Claims -/

/-- C10: for every period argument whose upper-cased value is neither
"AM" nor "PM", `TMC_File.get_peak_hour` returns no peak window
(the `None` return after printing the invalid-period message) rather
than raising, and period handling is case-insensitive: "am" and "AM"
yield the same result. -/
theorem C10_invalid_period_returns_none (rows : List (ℤ × ℤ)) (period : String) :
    (pyUpper period ≠ "AM" → pyUpper period ≠ "PM" →
      get_peak_hour rows period = PeakResult.invalidPeriod)
    ∧ get_peak_hour rows "am" = get_peak_hour rows "AM" := by
  constructor
  · intro h1 h2
    simp [get_peak_hour, h1, h2]
  · have ham : pyUpper "am" = "AM" := by decide
    have hAM : pyUpper "AM" = "AM" := by decide
    simp [get_peak_hour, daypart_subset, ham, hAM]

/-- C10 witness: the period "noon" yields the `None` return, and
"am" / "AM" agree, on a concrete one-row series. -/
theorem C10_witness :
    get_peak_hour [((25200 : ℤ), (10 : ℤ))] "noon" = PeakResult.invalidPeriod ∧
    get_peak_hour [((25200 : ℤ), (10 : ℤ))] "am" =
      get_peak_hour [((25200 : ℤ), (10 : ℤ))] "AM" :=
  ⟨(C10_invalid_period_returns_none [(25200, 10)] "noon").1 (by decide) (by decide),
   (C10_invalid_period_returns_none [(25200, 10)] "noon").2⟩

/-- C7 counterexample: in the main pipeline method
`TMC_File.flatten_headers`, a level-1 direction token that is not in
the direction lookup does *not* proceed with the raw text — the bare
dictionary subscript raises `KeyError`, so normalization aborts with
no warning at all. -/
theorem C7_counterexample :
    flatten_headers_dm [(some "Norhtbound", "left turns")] =
      Except.error "KeyError: Norhtbound" := by rfl

/-- C7 amended: only `business_logic.flatten_headers` (the web upload
path) proceeds on an unknown direction token, reusing the raw
direction text as the carried prefix for that and subsequent columns
and emitting a level-1 warning distinguishable from the level-2
(unmapped movement) warning; `TMC_File.flatten_headers` instead
raises `KeyError` on the same input. -/
theorem C7_unknown_direction_amended (raw l2a l2b m1 m2 : String)
    (h1 : replacements_level_1.lookup raw = none)
    (h2a : replacements_level_2_bl.lookup (pyLower l2a) = some m1)
    (h2b : replacements_level_2_bl.lookup (pyLower l2b) = some m2) :
    flatten_headers_bl [(some raw, l2a), (none, l2b)] =
      ([raw ++ m1, raw ++ m2], [HeaderWarning.unknownDirection raw])
    ∧ flatten_headers_dm [(some raw, l2a), (none, l2b)] =
        Except.error ("KeyError: " ++ raw)
    ∧ (∀ s, HeaderWarning.unknownDirection raw ≠ HeaderWarning.unknownMovement s) := by
  refine ⟨?_, ?_, ?_⟩
  · simp [flatten_headers_bl, flattenStepBL, h1, h2a, h2b]
  · simp [flatten_headers_dm, flattenStepDM, h1, Except.map, Bind.bind, Except.bind]
  · intro s
    exact fun h => HeaderWarning.noConfusion h

/-- C7 witness: the amended behavior at the concrete typo direction
"Norhtbound" followed by a merged-header column. -/
theorem C7_witness :
    flatten_headers_bl [(some "Norhtbound", "left turns"), (none, "right turns")] =
      (["NorhtboundLeft", "NorhtboundRight"],
        [HeaderWarning.unknownDirection "Norhtbound"])
    ∧ flatten_headers_dm [(some "Norhtbound", "left turns"), (none, "right turns")] =
        Except.error ("KeyError: " ++ "Norhtbound")
    ∧ (∀ s, HeaderWarning.unknownDirection "Norhtbound" ≠
        HeaderWarning.unknownMovement s) :=
  C7_unknown_direction_amended "Norhtbound" "left turns" "right turns" "Left" "Right"
    (by decide) (by decide) (by decide)

/-- C8 counterexample: in the interval table builder
(`TMC_File.read_data_tab`), a free-form "H:MM" time string does *not*
parse — the `try/except` leaves the string unchanged and the
subsequent `datetime.combine` raises an uncaught `TypeError` — so the
row is neither converted nor dropped: the whole read aborts. -/
theorem C8_counterexample :
    read_data_tab_times 0 [TimeCell.txt "7:00"] =
      Except.error "TypeError: combine() argument 2 must be a datetime.time" := by
  rfl

/-- C8 amended: only the web upload reader
(`TMC_Webapp_Upload_File.read_data`) parses both forms — a structured
time and a well-formed "H:MM" string yield the same semantic time
value.  The main reader (`TMC_File.read_data_tab`) parses only
structured values (a `datetime` or a `datetime.time`); a free-form
string raises an uncaught `TypeError` at `datetime.combine`.  In both
readers a row whose time value fails to parse is *not* dropped: the
first failure aborts the read (rows are dropped only by the blank
data-column `dropna`, before this loop). -/
theorem C8_time_parsing_amended (d day : ℤ) (s : String) (t sec : ℤ)
    (h : parse_hmm s = Except.ok t) :
    web_read_times [TimeCell.txt s] = web_read_times [TimeCell.tod t]
    ∧ web_read_times [TimeCell.tod sec] = Except.ok [sec]
    ∧ read_data_tab_times d [TimeCell.dt day sec] = Except.ok [86400 * d + sec]
    ∧ read_data_tab_times d [TimeCell.tod sec] = Except.ok [86400 * d + sec]
    ∧ read_data_tab_times d [TimeCell.txt s] =
        Except.error "TypeError: combine() argument 2 must be a datetime.time"
    ∧ (∀ (e : String) (rest : List TimeCell), parse_hmm s = Except.error e →
        web_read_times (TimeCell.txt s :: rest) = Except.error e) := by
  refine ⟨?_, ?_, ?_, ?_, ?_, ?_⟩
  · simp [web_read_times, web_coerce_time, h, List.foldlM, Except.map]
  · simp [web_read_times, web_coerce_time, List.foldlM, Except.map]
  · simp [read_data_tab_times, coerce_time_dm, datetime_combine, List.foldlM, Except.map]
  · simp [read_data_tab_times, coerce_time_dm, datetime_combine, List.foldlM, Except.map]
  · simp [read_data_tab_times, coerce_time_dm, datetime_combine, List.foldlM, Except.map]
  · intro e rest herr
    rw [herr] at h
    exact absurd h (by simp)

/-- C8 witness: "7:00" and the structured time 07:00:00 (25200
seconds) agree in the web reader; the same string is fatal in the main
reader. -/
theorem C8_witness :
    web_read_times [TimeCell.txt "7:00"] = web_read_times [TimeCell.tod 25200]
    ∧ web_read_times [TimeCell.tod 25200] = Except.ok [25200]
    ∧ read_data_tab_times 0 [TimeCell.dt 0 25200] = Except.ok [86400 * 0 + 25200]
    ∧ read_data_tab_times 0 [TimeCell.tod 25200] = Except.ok [86400 * 0 + 25200]
    ∧ read_data_tab_times 0 [TimeCell.txt "7:00"] =
        Except.error "TypeError: combine() argument 2 must be a datetime.time"
    ∧ (∀ (e : String) (rest : List TimeCell), parse_hmm "7:00" = Except.error e →
        web_read_times (TimeCell.txt "7:00" :: rest) = Except.error e) :=
  C8_time_parsing_amended 0 0 "7:00" 25200 25200 (by rfl)

/-- C5 counterexample: a movement whose light and total window sums
are both 0 gets percent-heavy `NaN` — the pandas `0 / 0` — not the
claimed `0`. -/
theorem C5_counterexample :
    df_peak_hour_heavy_pct [((25200 : ℤ), [(0 : ℤ)])] [((25200 : ℤ), [(0 : ℤ)])]
        25200 28800 = [NumVal.nan]
    ∧ NumVal.nan ≠ NumVal.num 0 := by
  constructor
  · rfl
  · intro h
    exact NumVal.noConfusion h

/-- C5 amended: percent-heavy is `(1 - light/total) * 100` under
pandas float semantics; a movement with `total = 0` yields `NaN` when
`light = 0` (and `-inf` when `light > 0`) — a defined float, silently
propagated, never an exception and never the value `0`; the rational
formula holds exactly whenever `total ≠ 0`. -/
theorem C5_percent_heavy_amended (light total : ℤ) :
    (total = 0 → light = 0 → heavy_pct_cell light total = NumVal.nan)
    ∧ (total = 0 → 0 < light → heavy_pct_cell light total = NumVal.ninf)
    ∧ (total ≠ 0 →
        heavy_pct_cell light total =
          NumVal.num ((1 - (light : ℚ) / (total : ℚ)) * 100)) := by
  refine ⟨?_, ?_, ?_⟩
  · rintro rfl rfl
    rfl
  · rintro rfl hl
    simp [heavy_pct_cell, numpyDiv, hl, Int.ne_of_gt hl]
  · intro ht
    simp [heavy_pct_cell, numpyDiv, ht]

/-- C5 witness: the amended behavior at `light = 0, total = 0` and at
`light = 1, total = 4` (75 percent heavy). -/
theorem C5_witness :
    heavy_pct_cell 0 0 = NumVal.nan
    ∧ heavy_pct_cell 1 4 = NumVal.num ((1 - (1 : ℚ) / (4 : ℚ)) * 100) :=
  ⟨(C5_percent_heavy_amended 0 0).1 rfl rfl,
   (C5_percent_heavy_amended 1 4).2.2 (by decide)⟩

/-- C6 counterexample: `summarize.get_network_peak_hour_df` does *not*
leave the series of the site unchanged — the `df.index = df.index.time`
statement replaces the datetime index of the caller with bare times in
place, so the site dataframe differs after the reconciliation pass. -/
theorem C6_counterexample :
    (get_network_peak_hour_df ⟨[StampVal.dt 19000 25200], [[5, 3]]⟩
        25200 28800).1 ≠
      (⟨[StampVal.dt 19000 25200], [[5, 3]]⟩ : SiteDF) := by
  decide

/-- C6 amended: the network reconciliation pass never changes the cell
values or row count of a site and only derives new aggregate rows, but
it does mutate the index of the site in place: every full datetime is replaced
by its time-of-day (idempotently — the `try/except` makes a second
pass leave the already-converted index unchanged). -/
theorem C6_reslice_mutation_amended (df : SiteDF) (s e : ℤ) :
    (get_network_peak_hour_df df s e).1.data = df.data
    ∧ (get_network_peak_hour_df df s e).1.index =
        df.index.map StampVal.toTimeOfDay
    ∧ (get_df_peak df s e).1.data = df.data
    ∧ (get_df_peak df s e).1.index = df.index.map StampVal.toTimeOfDay
    ∧ (get_network_peak_hour_df (get_network_peak_hour_df df s e).1 s e).1 =
        (get_network_peak_hour_df df s e).1 := by
  refine ⟨rfl, rfl, rfl, rfl, ?_⟩
  have hidem : ∀ v : StampVal, v.toTimeOfDay.toTimeOfDay = v.toTimeOfDay := by
    intro v; cases v <;> rfl
  show (⟨(df.index.map StampVal.toTimeOfDay).map StampVal.toTimeOfDay, df.data⟩ :
      SiteDF) = ⟨df.index.map StampVal.toTimeOfDay, df.data⟩
  rw [List.map_map]
  congr 1
  exact List.map_congr_left fun v _ => hidem v

/-- C1 counterexample: for the 4-site example given in the spec
(07:00, 07:15, 07:30, 07:45), the printed network start is the median
07:22:30 (26550 s), but the start actually used to re-slice every
data of every site is `am_peak_hour_times[4 // 2]` = 07:30 (27000 s) — the
two differ, so the re-slicing start is *not* the median for even site
counts. -/
theorem C1_counterexample :
    python_median [25200, 26100, 27000, 27900] = 26550
    ∧ network_reslice_start [25200, 26100, 27000, 27900] = some 27000
    ∧ ((27000 : ℚ) ≠ (26550 : ℚ)) := by
  refine ⟨?_, by decide, by norm_num⟩
  norm_num [python_median, List.insertionSort, List.orderedInsert]

/-- C1 amended: per day-part the *printed* network PeakWindow start is
the median of the peak start times of all sites (as elapsed seconds since
midnight, averaging the two middle values for an even site count) and
its end is start + 60 min; but the start used to re-slice the data of
every site is the element at index `⌊n/2⌋` of the start-time list in file
processing order, which coincides with that median only in special
cases — in particular whenever the list arrives sorted and the number
of sites is odd (e.g. three sites 07:00, 07:15, 07:45 re-slice at
07:15). -/
theorem C1_network_median_amended (l : List ℤ) (h1 : l.Sorted (· ≤ ·))
    (h2 : l.length % 2 = 1) :
    ∃ m : ℤ, network_reslice_start l = some m
      ∧ (m : ℚ) = python_median (l.map fun z : ℤ => (z : ℚ))
      ∧ network_reslice_end l = some (m + 3600)
      ∧ network_printed_peak (l.map fun z : ℤ => (z : ℚ)) =
          (python_median (l.map fun z : ℤ => (z : ℚ)),
            python_median (l.map fun z : ℤ => (z : ℚ)) + 3600) := by
  have hn : 0 < l.length := by omega
  have hlt : l.length / 2 < l.length := Nat.div_lt_self hn (by norm_num)
  refine ⟨l.get ⟨l.length / 2, hlt⟩, ?_, ?_, ?_, rfl⟩
  · simp [network_reslice_start, List.get?_eq_get hlt]
  · have hq : (l.map fun z : ℤ => (z : ℚ)).Sorted (· ≤ ·) := by
      exact List.Pairwise.map _ (fun a b hab => by exact_mod_cast hab) h1
    have hsort := List.Sorted.insertionSort_eq hq
    have hlen : (l.map fun z : ℤ => (z : ℚ)).length = l.length := List.length_map _ _
    simp only [python_median, hsort, hlen, h2, if_pos]
    rw [List.getD_eq_getElem?_getD, List.getElem?_map]
    simp [List.getElem?_eq_getElem hlt]
  · simp [network_reslice_end, network_reslice_start, List.get?_eq_get hlt]

/-- C1 witness: three sites with AM peak starts 07:00, 07:15, 07:45 —
the re-slice start and the median agree at 07:15 (26100 s). -/
theorem C1_witness :
    ∃ m : ℤ, network_reslice_start [25200, 26100, 27900] = some m
      ∧ (m : ℚ) = python_median ([25200, 26100, 27900].map fun z : ℤ => (z : ℚ))
      ∧ network_reslice_end [25200, 26100, 27900] = some (m + 3600)
      ∧ network_printed_peak ([25200, 26100, 27900].map fun z : ℤ => (z : ℚ)) =
          (python_median ([25200, 26100, 27900].map fun z : ℤ => (z : ℚ)),
            python_median ([25200, 26100, 27900].map fun z : ℤ => (z : ℚ)) + 3600) :=
  C1_network_median_amended [25200, 26100, 27900] (by decide) (by decide)

/-- Summing the values of an `enumFrom` slice filtered to indices in
`[a, b]` is summing the `take`/`drop` slice of the underlying list. -/
theorem enumFrom_filter_window_sum (vs : List ℤ) :
    ∀ (k a b : ℕ),
    (((vs.enumFrom k).filter fun p => decide (a ≤ p.1 ∧ p.1 ≤ b)).map Prod.snd).sum
      = ((vs.take (b + 1 - k)).drop (a - k)).sum := by
  induction vs with
  | nil => intro k a b; simp
  | cons v tl ih =>
    intro k a b
    rw [show List.enumFrom k (v :: tl) = (k, v) :: List.enumFrom (k + 1) tl from rfl,
      List.filter_cons]
    by_cases hc : a ≤ k ∧ k ≤ b
    · rw [if_pos (by simpa using hc)]
      rw [List.map_cons, List.sum_cons, ih (k + 1) a b]
      rw [show b + 1 - k = (b + 1 - (k + 1)) + 1 from by omega,
        show a - k = 0 from by omega, show a - (k + 1) = 0 from by omega,
        List.take_succ_cons, List.drop_zero, List.drop_zero, List.sum_cons]
    · rw [if_neg (by simpa using hc)]
      rw [ih (k + 1) a b]
      rcases Nat.lt_or_ge b k with hbk | hbk
      · rw [show b + 1 - k = 0 from by omega, show b + 1 - (k + 1) = 0 from by omega]
        simp
      · have hka : k < a := by omega
        rw [show b + 1 - k = (b + 1 - (k + 1)) + 1 from by omega,
          show a - k = (a - (k + 1)) + 1 from by omega,
          List.take_succ_cons, List.drop_succ_cons]

/-- On a contiguous 15-minute series, the window sum of
`add_hourly_totals` at row `i` collapses to the sum of the (at most
four) consecutive values ending at index `i`. -/
theorem contiguous_window_sum (t0 : ℤ) (vs : List ℤ) (i : ℕ) :
    hourly_window_sum (contiguousSeries t0 vs) (t0 + 900 * (i : ℤ))
      = ((vs.take (i + 1)).drop (i - 3)).sum := by
  unfold hourly_window_sum contiguousSeries
  rw [List.filter_map, List.map_map]
  have hsnd : (Prod.snd ∘ fun p : ℕ × ℤ => ((t0 + 900 * (p.1 : ℤ), p.2) : ℤ × ℤ))
      = Prod.snd := rfl
  rw [hsnd]
  have hpred : ∀ p ∈ vs.enum,
      ((fun q : ℤ × ℤ =>
          decide (t0 + 900 * (i : ℤ) + 900 - 3600 ≤ q.1 ∧ q.1 < t0 + 900 * (i : ℤ) + 900)) ∘
        fun p : ℕ × ℤ => ((t0 + 900 * (p.1 : ℤ), p.2) : ℤ × ℤ)) p
        = decide (i - 3 ≤ p.1 ∧ p.1 ≤ i) := by
    intro p _
    simp only [Function.comp_apply]
    rw [decide_eq_decide]
    omega
  rw [List.filter_congr hpred]
  rw [show vs.enum = vs.enumFrom 0 from rfl, enumFrom_filter_window_sum vs 0 (i - 3) i]
  simp

/-- C2: on any series with `interval_total` populated,
`add_hourly_totals` gives row `i` of a contiguous 15-minute series the
rolling total `[timestamp + 15min − 60min, timestamp + 15min)`, which
equals the sum of the 4 consecutive values ending at (and including)
row `i` — and, within the first 45 minutes (`i < 3`), the sum of just
the `i + 1` values actually present (the `take (i+1)`/`drop (i−3)`
slice): no zero-padding and no error. -/
theorem C2_rolling_hour_total (t0 : ℤ) (vs : List ℤ) (i : ℕ) (hi : i < vs.length) :
    (add_hourly_totals (contiguousSeries t0 vs)).get? i
      = some (t0 + 900 * (i : ℤ), vs.get ⟨i, hi⟩,
          ((vs.take (i + 1)).drop (i - 3)).sum) := by
  unfold add_hourly_totals
  rw [List.get?_map]
  rw [show contiguousSeries t0 vs = vs.enum.map
    (fun p : ℕ × ℤ => ((t0 + 900 * (p.1 : ℤ), p.2) : ℤ × ℤ)) from rfl]
  rw [List.get?_map, List.get?_enum, List.get?_eq_get hi]
  simp only [Option.map_some']
  rw [show (vs.enum.map fun p : ℕ × ℤ => ((t0 + 900 * (p.1 : ℤ), p.2) : ℤ × ℤ))
      = contiguousSeries t0 vs from rfl]
  rw [contiguous_window_sum t0 vs i]

/-- C2 witness: the end-to-end example `[10, 20, 15, 25]` starting at
07:00 — the rolling total at 07:45 is 70, and the second row (inside
the first 45 minutes) sums only the two rows present, 30. -/
theorem C2_witness :
    (add_hourly_totals (contiguousSeries 25200 [10, 20, 15, 25])).get? 3
        = some (27900, 25, 70)
    ∧ (add_hourly_totals (contiguousSeries 25200 [10, 20, 15, 25])).get? 1
        = some (26100, 20, 30) := by
  constructor
  · have h := C2_rolling_hour_total 25200 [10, 20, 15, 25] 3 (by decide)
    simpa using h
  · have h := C2_rolling_hour_total 25200 [10, 20, 15, 25] 1 (by decide)
    simpa using h

/-- The fold inside `first_idxmax` returns the earliest row attaining
the maximum `total_hourly`, on a series strictly sorted by
timestamp. -/
theorem foldl_first_max_spec (rs : List (ℤ × ℤ)) :
    ∀ (r m : ℤ × ℤ),
    (r :: rs).Sorted (fun a b => a.1 < b.1) →
    rs.foldl (fun best cur => if best.2 < cur.2 then cur else best) r = m →
    m ∈ r :: rs ∧ (∀ q ∈ r :: rs, q.2 ≤ m.2)
      ∧ (∀ q ∈ r :: rs, q.2 = m.2 → m.1 ≤ q.1) := by
  induction rs with
  | nil =>
    intro r m _ hm
    simp only [List.foldl_nil] at hm
    subst hm
    refine ⟨by simp, ?_, ?_⟩
    · intro q hq
      simp only [List.mem_singleton] at hq
      subst hq; exact le_refl _
    · intro q hq _
      simp only [List.mem_singleton] at hq
      subst hq; exact le_refl _
  | cons c tl ih =>
    intro r m hs hm
    rw [List.sorted_cons] at hs
    obtain ⟨hs1, hs2⟩ := hs
    have hs2' := hs2
    rw [List.sorted_cons] at hs2'
    obtain ⟨hs3, hs4⟩ := hs2'
    by_cases hrc : r.2 < c.2
    · -- pick = c
      have hm' : tl.foldl (fun best cur => if best.2 < cur.2 then cur else best) c = m := by
        simpa [hrc] using hm
      obtain ⟨hmem, hmax, hfirst⟩ := ih c m hs2 hm'
      refine ⟨?_, ?_, ?_⟩
      · rcases List.mem_cons.mp hmem with h | h
        · subst h
          exact List.mem_cons_of_mem r (List.mem_cons_self _ tl)
        · exact List.mem_cons_of_mem r (List.mem_cons_of_mem c h)
      · intro q hq
        rcases List.mem_cons.mp hq with h | h
        · subst h
          exact le_trans (le_of_lt hrc) (hmax c (List.mem_cons_self c tl))
        · exact hmax q h
      · intro q hq hqe
        rcases List.mem_cons.mp hq with h | h
        · exfalso
          subst h
          have hcm : c.2 ≤ m.2 := hmax c (List.mem_cons_self c tl)
          omega
        · exact hfirst q h hqe
    · -- pick = r
      have hcr : c.2 ≤ r.2 := le_of_not_lt hrc
      have hsort' : (r :: tl).Sorted (fun a b => a.1 < b.1) := by
        rw [List.sorted_cons]
        exact ⟨fun b hb => hs1 b (List.mem_cons_of_mem c hb), hs4⟩
      have hm' : tl.foldl (fun best cur => if best.2 < cur.2 then cur else best) r = m := by
        simpa [hrc] using hm
      obtain ⟨hmem, hmax, hfirst⟩ := ih r m hsort' hm'
      refine ⟨?_, ?_, ?_⟩
      · rcases List.mem_cons.mp hmem with h | h
        · subst h
          exact List.mem_cons_self _ (c :: tl)
        · exact List.mem_cons_of_mem r (List.mem_cons_of_mem c h)
      · intro q hq
        rcases List.mem_cons.mp hq with h | h
        · subst h
          exact hmax q (List.mem_cons_self q tl)
        · rcases List.mem_cons.mp h with h2 | h2
          · subst h2
            exact le_trans hcr (hmax r (List.mem_cons_self r tl))
          · exact hmax q (List.mem_cons_of_mem r h2)
      · intro q hq hqe
        rcases List.mem_cons.mp hq with h | h
        · subst h
          exact hfirst q (List.mem_cons_self q tl) hqe
        · rcases List.mem_cons.mp h with h2 | h2
          · -- q = c, tie with r forced
            subst h2
            have hrm : r.2 ≤ m.2 := hmax r (List.mem_cons_self r tl)
            have hrm2 : r.2 = m.2 := by omega
            have hm1 : m.1 ≤ r.1 := hfirst r (List.mem_cons_self r tl) hrm2
            have hrc1 : r.1 < q.1 := hs1 q (List.mem_cons_self q tl)
            omega
          · exact hfirst q (List.mem_cons_of_mem r h2) hqe

/-- Lemma: `peak_from_subset` on a non-empty, strictly time-sorted day-part
subset returns the window derived from the earliest maximal row. -/
theorem peak_from_subset_spec (sub : List (ℤ × ℤ))
    (hs : sub.Sorted (fun a b => a.1 < b.1)) (hne : sub ≠ []) :
    ∃ r ∈ sub,
      peak_from_subset sub = PeakResult.window (r.1 + 900 - 3600) (r.1 + 900)
      ∧ (∀ q ∈ sub, q.2 ≤ r.2) ∧ (∀ q ∈ sub, q.2 = r.2 → r.1 ≤ q.1) := by
  match sub, hne with
  | r0 :: rs, _ =>
    obtain ⟨hmem, hmax, hfirst⟩ := foldl_first_max_spec rs r0
      (rs.foldl (fun best cur => if best.2 < cur.2 then cur else best) r0) hs rfl
    exact ⟨_, hmem, rfl, hmax, hfirst⟩

/-- C3: on every non-empty day-part subset (AM strictly before noon,
PM at or after noon), `get_peak_hour` returns the window
`(end − 60min, end)` with `end` = 15 min past the timestamp of the row
whose `total_hourly` is maximal in the subset; ties select the
earliest row, and the selector is deterministic. -/
theorem C3_peak_window_selector (rows : List (ℤ × ℤ))
    (hs : rows.Sorted (fun a b => a.1 < b.1)) (period : String)
    (hp : pyUpper period = "AM" ∨ pyUpper period = "PM")
    (hne : daypart_subset rows period ≠ []) :
    ∃ r ∈ daypart_subset rows period,
      get_peak_hour rows period = PeakResult.window (r.1 + 900 - 3600) (r.1 + 900)
      ∧ (∀ q ∈ daypart_subset rows period, q.2 ≤ r.2)
      ∧ (∀ q ∈ daypart_subset rows period, q.2 = r.2 → r.1 ≤ q.1)
      ∧ get_peak_hour rows period = get_peak_hour rows period := by
  have hgp : get_peak_hour rows period = peak_from_subset (daypart_subset rows period) := by
    rcases hp with h | h
    · simp [get_peak_hour, h]
    · have hne2 : pyUpper period ≠ "AM" := by rw [h]; decide
      simp [get_peak_hour, h, hne2]
  have hsub : (daypart_subset rows period).Sorted (fun a b => a.1 < b.1) := by
    unfold daypart_subset
    split
    · exact hs.filter _
    · split
      · exact hs.filter _
      · exact List.sorted_nil
  obtain ⟨r, hr, hw, hmax, hfirst⟩ := peak_from_subset_spec _ hsub hne
  exact ⟨r, hr, hgp ▸ hw, hmax, hfirst, rfl⟩

/-- C3 witness: three AM rows with a tie for the maximal rolling hour
at 07:15 and 07:30 — the selector picks the earlier row, 07:15. -/
theorem C3_witness :
    ∃ r ∈ daypart_subset [((25200 : ℤ), (10 : ℤ)), (26100, 30), (27000, 30)] "AM",
      get_peak_hour [((25200 : ℤ), (10 : ℤ)), (26100, 30), (27000, 30)] "AM"
        = PeakResult.window (r.1 + 900 - 3600) (r.1 + 900)
      ∧ (∀ q ∈ daypart_subset [((25200 : ℤ), (10 : ℤ)), (26100, 30), (27000, 30)] "AM",
          q.2 ≤ r.2)
      ∧ (∀ q ∈ daypart_subset [((25200 : ℤ), (10 : ℤ)), (26100, 30), (27000, 30)] "AM",
          q.2 = r.2 → r.1 ≤ q.1)
      ∧ get_peak_hour [((25200 : ℤ), (10 : ℤ)), (26100, 30), (27000, 30)] "AM"
        = get_peak_hour [((25200 : ℤ), (10 : ℤ)), (26100, 30), (27000, 30)] "AM" :=
  C3_peak_window_selector [(25200, 10), (26100, 30), (27000, 30)] (by decide)
    "AM" (Or.inl (by decide)) (by decide)

/-- Model fact for `.iat[-1]` of a non-empty frame: the `getLastD` over the tail is
the last element of the whole list. -/
theorem getLastD_cons_eq_getLast (rs : List PRow) :
    ∀ r : PRow, rs.getLastD r = (r :: rs).getLast (List.cons_ne_nil r rs) := by
  induction rs with
  | nil => intro r; rfl
  | cons x xs ih =>
    intro r
    rw [List.getLastD_cons, ih x, List.getLast_cons_cons]

/-- The fold inside `network_peak_hour_factor` bounds the accumulator
and every element from below (it computes `max(total_15_min)`). -/
theorem foldl_max_bounds (rs : List PRow) :
    ∀ a : ℤ, a ≤ rs.foldl (fun x q => max x q.fifteen) a
      ∧ ∀ p ∈ rs, p.fifteen ≤ rs.foldl (fun x q => max x q.fifteen) a := by
  induction rs with
  | nil =>
    intro a
    exact ⟨le_refl a, by simp⟩
  | cons c tl ih =>
    intro a
    rw [List.foldl_cons]
    constructor
    · exact le_trans (le_max_left a c.fifteen) (ih (max a c.fifteen)).1
    · intro p hp
      rcases List.mem_cons.mp hp with h | h
      · subst h
        exact le_trans (le_max_right a p.fifteen) (ih (max a p.fifteen)).1
      · exact (ih (max a c.fifteen)).2 p h

/-- The fold inside `network_peak_hour_factor` on an all-zero
`total_15_min` column stays at zero. -/
theorem foldl_max_zero (rs : List PRow) (h : ∀ q ∈ rs, q.fifteen = 0) :
    rs.foldl (fun a q => max a q.fifteen) 0 = 0 := by
  induction rs with
  | nil => rfl
  | cons c tl ih =>
    rw [List.foldl_cons, h c (List.mem_cons_self c tl)]
    simp only [max_self]
    exact ih fun q hq => h q (List.mem_cons_of_mem c hq)

/-- C4: `network_peak_hour_factor` divides the `total_hourly` of the
last window row by `4 × max(total_15_min)` over the window — on any
non-empty window the result is a defined float (`some v`, never an
exception), an all-zero window yields the `NaN` sentinel of the numpy
`0 / 0` (with a warning, not a `ZeroDivisionError`), and on the
end-to-end example `[10, 20, 15, 25]` run through `add_hourly_totals`
the factor is `70 / (4 × 25) = 0.70`. -/
theorem C4_phf_defined_and_example :
    (∀ (rows : List PRow) (hne : rows ≠ []),
      (∃ v, network_peak_hour_factor rows = some v)
      ∧ ((∀ p ∈ rows, p.fifteen = 0) → (rows.getLast hne).hourly = 0 →
          network_peak_hour_factor rows = some NumVal.nan))
    ∧ network_peak_hour_factor
        ((add_hourly_totals (contiguousSeries 25200 [10, 20, 15, 25])).map
          fun r => ⟨r.1, r.2.1, r.2.2⟩) = some (NumVal.num (7 / 10)) := by
  constructor
  · intro rows hne
    match rows, hne with
    | r :: rs, _ =>
      constructor
      · exact ⟨_, rfl⟩
      · intro h0 hl
        have hr0 : r.fifteen = 0 := h0 r (List.mem_cons_self r rs)
        have hmax : rs.foldl (fun a q => max a q.fifteen) r.fifteen = 0 := by
          rw [hr0]
          exact foldl_max_zero rs fun q hq => h0 q (List.mem_cons_of_mem r hq)
        have hlast : (rs.getLastD r).hourly = 0 := by
          rw [getLastD_cons_eq_getLast]
          exact hl
        show some (numpyDiv (rs.getLastD r).hourly
          (4 * rs.foldl (fun a q => max a q.fifteen) r.fifteen)) = some NumVal.nan
        rw [hmax, hlast]
        rfl
  · have hlist : ((add_hourly_totals (contiguousSeries 25200 [10, 20, 15, 25])).map
        fun r => (⟨r.1, r.2.1, r.2.2⟩ : PRow))
        = [⟨25200, 10, 10⟩, ⟨26100, 20, 30⟩, ⟨27000, 15, 45⟩, ⟨27900, 25, 70⟩] := by
      decide
    rw [hlist]
    show some (numpyDiv 70 100) = some (NumVal.num (7 / 10))
    rw [numpyDiv]
    norm_num

/-- C4 witness: the all-zero one-row window yields the `NaN`
sentinel. -/
theorem C4_witness :
    network_peak_hour_factor [⟨25200, 0, 0⟩] = some NumVal.nan :=
  (C4_phf_defined_and_example.1 [⟨25200, 0, 0⟩] (by decide)).2
    (by decide) (by rfl)

/-- C9 counterexample: the detail-report rows do *not* all carry a
peak hour factor in (0, 1] — `update_peak_hour_factors` writes the
literal `0` into the `peak_hour_factor` of every `heavy_pct` row, and
`0 ∉ (0, 1]`. -/
theorem C9_counterexample :
    (update_peak_hour_factors
        [⟨1, "heavy_pct", "am", NumVal.num (1 / 2)⟩] 1 "am"
        (NumVal.num (7 / 10))).map DetailRow.peak_hour_factor
      = [NumVal.num 0]
    ∧ ¬ (0 < (0 : ℚ) ∧ (0 : ℚ) ≤ 1) := by
  constructor
  · rfl
  · intro h
    exact lt_irrefl 0 h.1

/-- C9 amended: the network peak hour factor attached to the `total`
detail rows is a rational in (0, 1] whenever the sliced window is
non-empty, at most 4 rows long, has non-negative quarter-hour totals
with at least one positive, and the `total_hourly` of its last row
equals the `total_15_min` sum of the window (the aligned case); the `heavy_pct`
detail rows instead carry the literal placeholder `0` (and an all-zero
window would make even the `total` rows carry `NaN`, per C4). -/
theorem C9_phf_range_amended :
    (∀ (rows : List PRow) (hne : rows ≠ []) (hlen : rows.length ≤ 4)
      (hnn : ∀ p ∈ rows, 0 ≤ p.fifteen) (hpos : ∃ p ∈ rows, 0 < p.fifteen)
      (halign : (rows.getLast hne).hourly = (rows.map PRow.fifteen).sum),
      ∃ q : ℚ, network_peak_hour_factor rows = some (NumVal.num q)
        ∧ 0 < q ∧ q ≤ 1)
    ∧ (∀ (df : List DetailRow) (key : ℤ) (tp : String) (f : NumVal) (i : ℕ)
        (r : DetailRow), df.get? i = some r → r.period = tp →
        r.location_id = key → r.dtype = "heavy_pct" →
        (update_peak_hour_factors df key tp f).get? i
          = some { r with peak_hour_factor := NumVal.num 0 }) := by
  constructor
  · intro rows hne hlen hnn hpos halign
    match rows, hne, hlen, hnn, hpos, halign with
    | r :: rs, _, hlen, hnn, hpos, halign =>
      have hbounds := foldl_max_bounds rs r.fifteen
      have hMall : ∀ p ∈ r :: rs, p.fifteen ≤
          rs.foldl (fun x q => max x q.fifteen) r.fifteen := by
        intro p hp
        rcases List.mem_cons.mp hp with h | h
        · subst h; exact hbounds.1
        · exact hbounds.2 p h
      obtain ⟨p0, hp0, hp0pos⟩ := hpos
      have hMpos : 0 < rs.foldl (fun x q => max x q.fifteen) r.fifteen :=
        lt_of_lt_of_le hp0pos (hMall p0 hp0)
      have hnnmap : ∀ x ∈ (r :: rs).map PRow.fifteen, 0 ≤ x := by
        intro x hx
        obtain ⟨p, hp, rfl⟩ := List.mem_map.mp hx
        exact hnn p hp
      have hSpos : 0 < ((r :: rs).map PRow.fifteen).sum :=
        lt_of_lt_of_le hp0pos
          (List.single_le_sum hnnmap p0.fifteen (List.mem_map_of_mem PRow.fifteen hp0))
      have hSle : ((r :: rs).map PRow.fifteen).sum ≤
          4 * rs.foldl (fun x q => max x q.fifteen) r.fifteen := by
        have h1 : ((r :: rs).map PRow.fifteen).sum ≤
            ((r :: rs).map PRow.fifteen).length •
              rs.foldl (fun x q => max x q.fifteen) r.fifteen := by
          refine List.sum_le_card_nsmul _ _ ?_
          intro x hx
          obtain ⟨p, hp, rfl⟩ := List.mem_map.mp hx
          exact hMall p hp
        rw [nsmul_eq_mul, List.length_map] at h1
        refine le_trans h1 ?_
        have h2 : ((r :: rs).length : ℤ) ≤ 4 := by exact_mod_cast hlen
        exact mul_le_mul_of_nonneg_right h2 (le_of_lt hMpos)
      have hlast : (rs.getLastD r).hourly = ((r :: rs).map PRow.fifteen).sum := by
        rw [getLastD_cons_eq_getLast]
        exact halign
      have hden : (4 : ℤ) * rs.foldl (fun x q => max x q.fifteen) r.fifteen ≠ 0 := by
        omega
      refine ⟨(((r :: rs).map PRow.fifteen).sum : ℚ) /
        ((4 * rs.foldl (fun x q => max x q.fifteen) r.fifteen : ℤ) : ℚ), ?_, ?_, ?_⟩
      · show some (numpyDiv (rs.getLastD r).hourly
          (4 * rs.foldl (fun a q => max a q.fifteen) r.fifteen)) = _
        rw [hlast, numpyDiv, if_pos hden]
      · refine div_pos ?_ ?_
        · exact_mod_cast hSpos
        · have : (0 : ℤ) < 4 * rs.foldl (fun x q => max x q.fifteen) r.fifteen := by
            omega
          exact_mod_cast this
      · rw [div_le_one (by exact_mod_cast (show (0:ℤ) < 4 *
          rs.foldl (fun x q => max x q.fifteen) r.fifteen by omega))]
        exact_mod_cast hSle
  · intro df key tp f i r hget hper hloc hdt
    unfold update_peak_hour_factors
    rw [List.get?_map, hget]
    have h1 : ¬ (r.period = tp ∧ r.location_id = key ∧ r.dtype = "total") := by
      intro h
      rw [hdt] at h
      exact absurd h.2.2 (by decide)
    have h2 : r.period = tp ∧ r.location_id = key ∧ r.dtype = "heavy_pct" :=
      ⟨hper, hloc, hdt⟩
    simp [h1, h2]

/-- C9 witness: a one-row window with quarter total 4 and hourly 4
gives factor 1/4 ∈ (0, 1], and a concrete `heavy_pct` row receives the
placeholder 0. -/
theorem C9_witness :
    (∃ q : ℚ, network_peak_hour_factor [⟨0, 4, 4⟩] = some (NumVal.num q)
      ∧ 0 < q ∧ q ≤ 1)
    ∧ (update_peak_hour_factors
        [⟨7, "heavy_pct", "pm", NumVal.num (1 / 3)⟩] 7 "pm"
        NumVal.nan).get? 0
      = some { location_id := 7, dtype := "heavy_pct", period := "pm",
               peak_hour_factor := NumVal.num 0 } :=
  ⟨C9_phf_range_amended.1 [⟨0, 4, 4⟩] (by decide) (by decide)
      (by intro p hp; simp at hp; subst hp; decide)
      ⟨⟨0, 4, 4⟩, by simp, by decide⟩ (by rfl),
   C9_phf_range_amended.2 [⟨7, "heavy_pct", "pm", NumVal.num (1 / 3)⟩] 7 "pm"
      NumVal.nan 0 ⟨7, "heavy_pct", "pm", NumVal.num (1 / 3)⟩ rfl rfl rfl rfl⟩
